import Mathlib

set_option linter.unusedVariables false

/-!
Verification of the ScrollMarks library (src/scroll-marks.js).

The JavaScript source is shallowly embedded: JS numbers are modelled as
rationals, the random token of the id generator is an explicit parameter,
a DOM snapshot is an explicit record, and the per-instance mutable state
(the record kept in the `privateData` WeakMap together with the
document-level facts the specification talks about) is threaded through
the operations as a value.
-/

namespace SM

/-- ColorMark value type of the library: `start` and `end` percentages
along the total scroll height plus the raw color string.  The source field
`end` is a Lean keyword, so it is called `endPct` here. -/
structure ColorMark where
  start : ℚ
  endPct : ℚ
  color : String
deriving DecidableEq

/-- One element matched by the configured selector: the `top` and `height`
of its `getBoundingClientRect()` and the value `getAttribute(attributeName)`
returns (`none` models a missing attribute, i.e. a `null` result). -/
structure MarkedElement where
  top : ℚ
  height : ℚ
  colorAttr : Option String
deriving DecidableEq

/-- DOM snapshot: the matched elements in document (discovery) order and
the scroll geometry the library reads. -/
structure Dom where
  elements : List MarkedElement
  bodyScrollHeight : ℚ
  docScrollHeight : ℚ
  innerHeight : ℚ
  pageYOffset : ℚ
  docScrollTop : ℚ
deriving DecidableEq

/-- Constructor options; `none` models an absent (`undefined`) field.  The
`container` option is a DOM reference and is not needed by any claim. -/
structure Options where
  trackColor : Option String := none
  thumbColor : Option String := none
  selector : Option String := none
  attributeName : Option String := none
  scrollbarWidth : Option ℚ := none

/-- Resolved per-instance configuration object. -/
structure Config where
  trackColor : String
  thumbColor : String
  selector : String
  attributeName : String
  scrollbarWidth : ℚ
deriving DecidableEq

/-- Models the JS expression `v || d` for an optional string option: an
absent value and the empty string are falsy and fall back to the default. -/
def strOr (v : Option String) (d : String) : String :=
  match v with
  | none => d
  | some s => if s = "" then d else s

/-- Models the JS expression `v || d` for an optional numeric option: an
absent value and `0` are falsy and fall back to the default (`NaN` is not
modelled). -/
def numOr (v : Option ℚ) (d : ℚ) : ℚ :=
  match v with
  | none => d
  | some n => if n = 0 then d else n

/-- Models the `config` object built by the constructor: each field is
`options.x || default`. -/
def mkConfig (options : Options) : Config where
  trackColor := strOr options.trackColor ("#1a1a2e")
  thumbColor := strOr options.thumbColor ("rgba(255,255,255,0.3)")
  selector := strOr options.selector ("[data-scroll-color]")
  attributeName := strOr options.attributeName ("data-scroll-color")
  scrollbarWidth := numOr options.scrollbarWidth 14

/-- Models `_getScrollHeight()`: the maximum of `document.body.scrollHeight`
and `document.documentElement.scrollHeight`. -/
def getScrollHeight (dom : Dom) : ℚ :=
  max dom.bodyScrollHeight dom.docScrollHeight

/-- Models `window.pageYOffset || document.documentElement.scrollTop`. -/
def scrollTopOf (dom : Dom) : ℚ :=
  if dom.pageYOffset = 0 then dom.docScrollTop else dom.pageYOffset

/-- Models JS `String.prototype.trim`: drop leading and trailing
whitespace.  Stated structurally over the character list so that the
kernel can evaluate it on concrete inputs. -/
def jsTrim (s : String) : String :=
  String.mk (((s.data.dropWhile Char.isWhitespace).reverse.dropWhile Char.isWhitespace).reverse)

/-- Body of the `elements.forEach` loop of `_collectMarks`: compute the
document-relative top, read the color attribute and skip a falsy (missing
or empty) value, clamp the percentage interval and keep it only when it is
non-degenerate; the kept color is trimmed. -/
def markOfElement (dom : Dom) (totalHeight : ℚ) (el : MarkedElement) : Option ColorMark :=
  let top := el.top + scrollTopOf dom
  let height := el.height
  match el.colorAttr with
  | none => none
  | some color =>
    if color = "" then none
    else
      let startPercent := max 0 (top / totalHeight * 100)
      let endPercent := min 100 ((top + height) / totalHeight * 100)
      if startPercent < endPercent then
        some { start := startPercent, endPct := endPercent, color := jsTrim color }
      else none

/-- Ordering used by `marks.sort((a, b) => a.start - b.start)`. -/
def startLE (a b : ColorMark) : Prop := a.start ≤ b.start

instance : DecidableRel startLE := fun a b => inferInstanceAs (Decidable (a.start ≤ b.start))

instance : IsTotal ColorMark startLE := ⟨fun a b => le_total a.start b.start⟩

instance : IsTrans ColorMark startLE := ⟨fun _ _ _ h h2 => le_trans h h2⟩

/-- Models the `marks` array of `_collectMarks` just before the final
`.sort` call, including the early `totalHeight <= 0` return; `totalHeight`
stands for `getScrollHeight dom`. -/
def collectRaw (cfg : Config) (dom : Dom) : List ColorMark :=
  if getScrollHeight dom ≤ 0 then []
  else dom.elements.filterMap (markOfElement dom (getScrollHeight dom))

/-- Models `_collectMarks`: the raw marks sorted ascending by `start`.
ECMAScript `Array.prototype.sort` is a stable sort, which insertion sort
models exactly. -/
def collectMarks (cfg : Config) (dom : Dom) : List ColorMark :=
  List.insertionSort startLE (collectRaw cfg dom)

/-- One hard-edged color band of the gradient: the pair of adjacent stops
`color lo%`, `color hi%` that `_buildGradient` pushes together. -/
structure Segment where
  color : String
  lo : ℚ
  hi : ℚ
deriving DecidableEq

/-- Loop of `_buildGradient` over the marks, carrying `lastEnd`, each
pushed pair of stops recorded as one `Segment`: a track-colored gap
segment when `mark.start > lastEnd + 0.01`, then the mark's own segment;
after the loop a closing track segment when `lastEnd < 99.99`. -/
def buildSegmentsAux (track : String) : ℚ → List ColorMark → List Segment
  | lastEnd, [] =>
    if lastEnd < 9999 / 100 then [{ color := track, lo := lastEnd, hi := 100 }] else []
  | lastEnd, m :: ms =>
    (if m.start > lastEnd + 1 / 100 then [{ color := track, lo := lastEnd, hi := m.start }]
     else [])
      ++ { color := m.color, lo := m.start, hi := m.endPct } :: buildSegmentsAux track m.endPct ms

/-- Segment sequence of `_buildGradient` starting from `lastEnd = 0`.  For
an empty mark list the source short-circuits to the solid track color,
which this model renders as the single full-width track segment the loop
would emit anyway. -/
def buildSegments (track : String) (marks : List ColorMark) : List Segment :=
  buildSegmentsAux track 0 marks

/-- Models `Number.prototype.toFixed(2)` for the nonnegative percentages
formatted by `_buildGradient`: scale by 100, round to the nearest integer,
print with exactly two decimals. -/
def toFixed2 (q : ℚ) : String :=
  let n : ℤ := ⌊q * 100 + 1 / 2⌋
  let ip := n / 100
  let fp := (n % 100).natAbs
  toString ip ++ "." ++ (if fp < 10 then "0" else "") ++ toString fp

/-- Models the `stops` array of `_buildGradient` with its formatted
entries (the closing stop is the literal `100%`). -/
def gradientStops (track : String) : ℚ → List ColorMark → List String
  | lastEnd, [] =>
    if lastEnd < 9999 / 100 then
      [track ++ " " ++ toFixed2 lastEnd ++ "%", track ++ " 100%"]
    else []
  | lastEnd, m :: ms =>
    (if m.start > lastEnd + 1 / 100 then
       [track ++ " " ++ toFixed2 lastEnd ++ "%", track ++ " " ++ toFixed2 m.start ++ "%"]
     else [])
      ++ (m.color ++ " " ++ toFixed2 m.start ++ "%")
        :: (m.color ++ " " ++ toFixed2 m.endPct ++ "%")
        :: gradientStops track m.endPct ms

/-- Models `_buildGradient`: the solid track color for an empty mark list,
otherwise a `linear-gradient` of the joined stops. -/
def buildGradient (cfg : Config) (marks : List ColorMark) : String :=
  if marks = [] then cfg.trackColor
  else
    "linear-gradient(to bottom, " ++
      String.intercalate (", ") (gradientStops cfg.trackColor 0 marks) ++ ")"

/-- Stringification of the integral numbers interpolated into the CSS
template. -/
def jsNumStr (q : ℚ) : String :=
  if q.den = 1 then toString q.num else toString q

/-- Models the CSS text assigned by `_applyStyles` (source braces are
written as character escapes). -/
def applyStylesText (cfg : Config) (gradient : String) : String :=
  "\n::-webkit-scrollbar \x7b\n  width: " ++ jsNumStr cfg.scrollbarWidth ++
  "px;\n\x7d\n::-webkit-scrollbar-track \x7b\n  background: " ++ gradient ++
  ";\n\x7d\n::-webkit-scrollbar-thumb \x7b\n  background: " ++ cfg.thumbColor ++
  ";\n  border-radius: " ++ jsNumStr ((⌊cfg.scrollbarWidth / 2⌋ : ℤ) : ℚ) ++
  "px;\n\x7d\n::-webkit-scrollbar-thumb:hover \x7b\n  background: rgba(255, 255, 255, 0.5);\n\x7d"

/-- Per-instance state.  The flag `destroyed` covers both `isDestroyed`
and the subsequent `privateData.delete` (externally indistinguishable);
`styleInDoc` records whether the instance's style element is attached to
`document.head`; `pending` records whether the `debounce` closure holds a
scheduled `requestAnimationFrame` callback. -/
structure InstState where
  id : String
  marks : List ColorMark
  styleText : String
  styleInDoc : Bool
  destroyed : Bool
  pending : Bool
deriving DecidableEq

/-- Models `generateId`, with the token produced by
`Math.random().toString(36).substr(2, 9)` supplied as a parameter
(randomness is external to the model). -/
def generateId (tok : String) : String := "scrollmarks-" ++ tok

/-- Models `update()`: a no-op once destroyed; when the content is not
scrollable it only clears the style text, leaving `state.marks` untouched;
otherwise it stores the freshly collected marks and writes the rendered
style text. -/
def update (cfg : Config) (dom : Dom) (s : InstState) : InstState :=
  if s.destroyed then s
  else if getScrollHeight dom ≤ dom.innerHeight then { s with styleText := "" }
  else
    { s with
      marks := collectMarks cfg dom,
      styleText := applyStylesText cfg (buildGradient cfg (collectMarks cfg dom)) }

/-- Models `getMarks()`: the empty array once the private data is gone,
otherwise a copy of the stored marks. -/
def getMarks (s : InstState) : List ColorMark :=
  if s.destroyed then [] else s.marks

/-- Models `getId()`: the empty string once the private data is gone,
otherwise the stored id. -/
def getId (s : InstState) : String :=
  if s.destroyed then "" else s.id

/-- Models `destroy()`: detaches the style element from the document and
marks the instance destroyed.  The handle of a pending debounced callback
lives inside the `debounce` closure and is not cancelled. -/
def destroy (s : InstState) : InstState :=
  if s.destroyed then s
  else { s with destroyed := true, styleInDoc := false }

/-- Models a trigger passing through `debounce`: a previously scheduled
callback is cancelled and replaced, leaving exactly one pending callback. -/
def schedule (s : InstState) : InstState := { s with pending := true }

/-- Models the scheduled animation-frame callback firing: it clears the
handle and runs `update()`; nothing happens when no callback is pending. -/
def fire (cfg : Config) (dom : Dom) (s : InstState) : InstState :=
  if s.pending then update cfg dom { s with pending := false } else s

/-- State assembled by the constructor before its initial update: `_init`
attaches the style element and stores the generated id. -/
def initState (tok : String) : InstState :=
  { id := generateId tok, marks := [], styleText := "", styleInDoc := true,
    destroyed := false, pending := false }

/-- Models construction: `_init` ends with one synchronous `update()`. -/
def mkInstance (cfg : Config) (tok : String) (dom : Dom) : InstState :=
  update cfg dom (initState tok)

/-- Public operations usable over an instance's lifetime. -/
inductive Op where
  | opUpdate (dom : Dom)
  | opGetMarks
  | opGetId
  | opSchedule
  | opFire (dom : Dom)
  | opDestroy

/-- Recognizer for the destroy operation. -/
def Op.isDestroyOp : Op → Bool
  | .opDestroy => true
  | _ => false

/-- Effect of one public operation on the instance state. -/
def stepOp (cfg : Config) (s : InstState) : Op → InstState
  | .opUpdate dom => update cfg dom s
  | .opGetMarks => s
  | .opGetId => s
  | .opSchedule => schedule s
  | .opFire dom => fire cfg dom s
  | .opDestroy => destroy s

/-- Runs a sequence of public operations. -/
def runOps (cfg : Config) (s : InstState) : List Op → InstState
  | [] => s
  | o :: os => runOps cfg (stepOp cfg s o) os

/-- Validity of one mark per the data model: percentages within `[0,100]`
bounding a nonempty interval. -/
def validMark (m : ColorMark) : Bool :=
  decide (0 ≤ m.start) && decide (m.start < m.endPct) && decide (m.endPct ≤ 100)

/-- Well-formedness of a MarkSet: valid marks sorted ascending by start. -/
def isMarkSet : List ColorMark → Bool
  | [] => true
  | [m] => validMark m
  | a :: b :: rest => validMark a && decide (a.start ≤ b.start) && isMarkSet (b :: rest)

/-- Valid marks that, read from position `x`, never overlap: each mark
starts no earlier than `x`, respectively the previous mark's end. -/
def chainedFrom (x : ℚ) : List ColorMark → Bool
  | [] => true
  | m :: ms => decide (x ≤ m.start) && validMark m && chainedFrom m.endPct ms

/-- Start percentage of the first segment. -/
def headLo : List Segment → ℚ
  | [] => 0
  | s :: _ => s.lo

/-- End percentage of the last segment. -/
def lastHi : List Segment → ℚ
  | [] => 0
  | [s] => s.hi
  | _ :: s :: rest => lastHi (s :: rest)

/-- Each segment begins where the previous one ends, within tolerance. -/
def adjacentWithin (e : ℚ) : List Segment → Bool
  | a :: b :: rest => decide (|b.lo - a.hi| ≤ e) && adjacentWithin e (b :: rest)
  | _ => true

/-- Contiguity property claimed of the emitted segments: the sequence is
nonempty, its first segment begins at 0 and its last ends at 100, and each
segment begins where the previous one ends — all within tolerance `e`. -/
def segmentsContiguous (e : ℚ) (segs : List Segment) : Bool :=
  !segs.isEmpty && decide (|headLo segs| ≤ e) && adjacentWithin e segs &&
    decide (|lastHi segs - 100| ≤ e)

/-- Default configuration (no options supplied). -/
def cfgDefault : Config := mkConfig {}

/-- Snapshot with one marked element at top 100 of height 200, total
scrollable height 2000, viewport 800. -/
def domA : Dom :=
  { elements := [{ top := 100, height := 200, colorAttr := some ("#ff0000") }],
    bodyScrollHeight := 2000, docScrollHeight := 2000,
    innerHeight := 800, pageYOffset := 0, docScrollTop := 0 }

/-- Snapshot whose content does not exceed the viewport and contains no
marked elements. -/
def domFlat : Dom :=
  { elements := [], bodyScrollHeight := 600, docScrollHeight := 600,
    innerHeight := 800, pageYOffset := 0, docScrollTop := 0 }

/-- All-falsy options record: every field explicitly supplied as a falsy
value. -/
def optionsFalsy : Options :=
  { trackColor := some (""), thumbColor := some (""), selector := some (""),
    attributeName := some (""), scrollbarWidth := some 0 }

/-- Concrete mark kept by the collector on snapshot `domA`. -/
def markA : ColorMark := { start := 5, endPct := 15, color := "#ff0000" }

/-- Truthiness of the color attribute read in `_collectMarks`: `null` and
the empty string are falsy. -/
def hasUsableColor (el : MarkedElement) : Bool :=
  match el.colorAttr with
  | none => false
  | some c => !(c == "")

/-- Snapshot with one marked element whose color attribute is a single
space (whitespace-only, hence truthy in JS). -/
def domWs : Dom :=
  { elements := [{ top := 100, height := 200, colorAttr := some (" ") }],
    bodyScrollHeight := 2000, docScrollHeight := 2000,
    innerHeight := 800, pageYOffset := 0, docScrollTop := 0 }

/-- Instance state after an update against `domA` followed by an update
against the non-scrollable snapshot `domFlat`. -/
def staleState : InstState :=
  update cfgDefault domFlat (update cfgDefault domA (initState ("t5")))

/-- Snapshot producing two overlapping marks: a tall element spanning the
first half of the document and a short one inside it. -/
def domOverlap : Dom :=
  { elements := [{ top := 0, height := 1000, colorAttr := some ("red") },
                 { top := 200, height := 200, colorAttr := some ("blue") }],
    bodyScrollHeight := 2000, docScrollHeight := 2000,
    innerHeight := 800, pageYOffset := 0, docScrollTop := 0 }

/-- Overlapping MarkSet the collector produces on `domOverlap`. -/
def marksOverlap : List ColorMark :=
  [{ start := 0, endPct := 50, color := "red" }, { start := 10, endPct := 20, color := "blue" }]

/-- Updating never changes the stored id, the destruction flag, the style
attachment or the pending callback handle. -/
lemma update_preserves (cfg : Config) (dom : Dom) (s : InstState) :
    (update cfg dom s).id = s.id ∧ (update cfg dom s).destroyed = s.destroyed ∧
      (update cfg dom s).styleInDoc = s.styleInDoc ∧ (update cfg dom s).pending = s.pending := by
  rw [update]
  split_ifs <;> simp

/-- Destroying always leaves the destruction flag set. -/
lemma destroy_destroyed (s : InstState) : (destroy s).destroyed = true := by
  rw [destroy]
  split_ifs with h
  · exact h
  · rfl

/-- Claim C6: after `destroy()` on an active instance, `getMarks()` returns
the empty sequence, `update()` is a no-op (so neither call can raise),
repeated `destroy()` calls are no-ops, and the instance's style container
is no longer in the document. -/
theorem destroy_postconditions (cfg : Config) (dom : Dom) (s : InstState)
    (h : s.destroyed = false) :
    getMarks (destroy s) = [] ∧
      update cfg dom (destroy s) = destroy s ∧
      destroy (destroy s) = destroy s ∧
      (destroy s).styleInDoc = false := by
  have hd := destroy_destroyed s
  refine ⟨?_, ?_, ?_, ?_⟩
  · rw [getMarks, if_pos hd]
  · rw [update, if_pos hd]
  · rw [destroy, if_pos hd]
  · have hne : ¬ s.destroyed = true := by
      rw [h]
      exact Bool.false_ne_true
    rw [destroy, if_neg hne]

/-- Witness for C6 at a concrete freshly constructed instance. -/
theorem destroy_postconditions_wit :
    getMarks (destroy (initState ("w6"))) = [] ∧
      update cfgDefault domFlat (destroy (initState ("w6"))) = destroy (initState ("w6")) ∧
      destroy (destroy (initState ("w6"))) = destroy (initState ("w6")) ∧
      (destroy (initState ("w6"))).styleInDoc = false :=
  destroy_postconditions cfgDefault domFlat (initState ("w6")) rfl

/-- Claim C7: two successive `update()` calls against the same DOM snapshot
write byte-identical style text. -/
theorem update_styleText_idempotent (cfg : Config) (dom : Dom) (s : InstState) :
    (update cfg dom (update cfg dom s)).styleText = (update cfg dom s).styleText := by
  by_cases hd : s.destroyed = true
  · simp [update, hd]
  · have hd' : s.destroyed = false := Bool.not_eq_true s.destroyed |>.mp hd
    by_cases hh : getScrollHeight dom ≤ dom.innerHeight
    · simp [update, hd', hh]
    · simp [update, hd', hh]

/-- Claim C8, counterexample: `destroy()` does not cancel a pending
debounced recomputation — the animation-frame handle scheduled before the
destroy call is still pending afterwards. -/
theorem destroy_leaves_pending_cex :
    ¬ (destroy (schedule (initState ("t8")))).pending = false := by
  decide

/-- Replacing the pending flag by its current value is the identity. -/
lemma pending_eta (s : InstState) (h : s.pending = false) :
    { s with pending := false } = s := by
  cases s with
  | mk i m st sd d p =>
    cases h
    rfl

/-- Claim C8 (amended): the pending callback survives `destroy()` and may
still fire, but firing it against the destroyed instance performs no
recomputation — it only clears the handle and leaves the released state
untouched. -/
theorem fire_after_destroy_noop (cfg : Config) (dom : Dom) (s : InstState) :
    fire cfg dom (destroy s) = { destroy s with pending := false } := by
  have hd := destroy_destroyed s
  rw [fire]
  split_ifs with hp
  · rw [update]
    simp [hd]
  · have hp' : (destroy s).pending = false := Bool.not_eq_true (destroy s).pending |>.mp hp
    rw [pending_eta (destroy s) hp']

/-- Claim C10: every falsy option value — absent, the empty string, or the
number 0 — is replaced by the documented default rather than used as
given. -/
theorem falsy_options_get_defaults (o : Options) :
    ((o.trackColor = none ∨ o.trackColor = some ("")) →
        (mkConfig o).trackColor = "#1a1a2e") ∧
      ((o.thumbColor = none ∨ o.thumbColor = some ("")) →
        (mkConfig o).thumbColor = "rgba(255,255,255,0.3)") ∧
      ((o.selector = none ∨ o.selector = some ("")) →
        (mkConfig o).selector = "[data-scroll-color]") ∧
      ((o.attributeName = none ∨ o.attributeName = some ("")) →
        (mkConfig o).attributeName = "data-scroll-color") ∧
      ((o.scrollbarWidth = none ∨ o.scrollbarWidth = some 0) →
        (mkConfig o).scrollbarWidth = 14) := by
  refine ⟨?_, ?_, ?_, ?_, ?_⟩ <;> rintro (h | h) <;> simp [mkConfig, strOr, numOr, h]

/-- Witness for C10: explicitly supplied falsy values (`""` and `0`) all
become the documented defaults. -/
theorem falsy_options_get_defaults_wit :
    (mkConfig optionsFalsy).trackColor = "#1a1a2e" ∧
      (mkConfig optionsFalsy).thumbColor = "rgba(255,255,255,0.3)" ∧
      (mkConfig optionsFalsy).selector = "[data-scroll-color]" ∧
      (mkConfig optionsFalsy).attributeName = "data-scroll-color" ∧
      (mkConfig optionsFalsy).scrollbarWidth = 14 := by
  have h := falsy_options_get_defaults optionsFalsy
  exact ⟨h.1 (Or.inr rfl), h.2.1 (Or.inr rfl), h.2.2.1 (Or.inr rfl),
    h.2.2.2.1 (Or.inr rfl), h.2.2.2.2 (Or.inr rfl)⟩

/-- Every mark the forEach body keeps satisfies the interval bounds: the
start is clamped from below, the end from above, and the guard
`startPercent < endPercent` orders them. -/
lemma markOfElement_bounds {dom : Dom} {H : ℚ} {el : MarkedElement} {m : ColorMark}
    (h : markOfElement dom H el = some m) :
    0 ≤ m.start ∧ m.start < m.endPct ∧ m.endPct ≤ 100 := by
  rw [markOfElement] at h
  rcases hat : el.colorAttr with _ | color
  · rw [hat] at h
    exact absurd h (by simp)
  · rw [hat] at h
    simp only at h
    split_ifs at h with h1 h2
    injection h with h3
    rw [← h3]
    exact ⟨le_max_left 0 _, h2, min_le_left 100 _⟩

/-- Claim C2: every ColorMark the collector keeps satisfies
`0 ≤ start < end ≤ 100` (degenerate intervals having been dropped), for
any element geometry and scroll geometry. -/
theorem collectMarks_mem_bounds (cfg : Config) (dom : Dom) (m : ColorMark)
    (h : m ∈ collectMarks cfg dom) :
    0 ≤ m.start ∧ m.start < m.endPct ∧ m.endPct ≤ 100 := by
  rw [collectMarks] at h
  have h2 : m ∈ collectRaw cfg dom := (List.perm_insertionSort startLE _).mem_iff.mp h
  rw [collectRaw] at h2
  split_ifs at h2 with hH
  · exact absurd h2 (List.not_mem_nil m)
  · obtain ⟨el, _, hel⟩ := List.mem_filterMap.mp h2
    exact markOfElement_bounds hel

/-- Witness for C2 at the concrete snapshot `domA`. -/
theorem collectMarks_mem_bounds_wit :
    markA ∈ collectMarks cfgDefault domA ∧
      0 ≤ markA.start ∧ markA.start < markA.endPct ∧ markA.endPct ≤ 100 := by
  have hmem : markA ∈ collectMarks cfgDefault domA := by
    have hev : collectMarks cfgDefault domA = [markA] := by
      norm_num [collectMarks, collectRaw, markOfElement, getScrollHeight, scrollTopOf, domA,
        cfgDefault, mkConfig, strOr, numOr, List.insertionSort, List.orderedInsert,
        max_def, min_def, List.filterMap_cons, List.filterMap_nil, markA]
      decide
    rw [hev]
    exact List.mem_singleton.mpr rfl
  exact ⟨hmem, collectMarks_mem_bounds cfgDefault domA markA hmem⟩

/-- Filtering for a fixed start value commutes with an ordered insert: the
inserted mark lands in front of the filtered tail exactly when it has that
start value, because every element it is inserted behind has a strictly
smaller start. -/
lemma filter_orderedInsert (q : ℚ) (a : ColorMark) :
    ∀ l : List ColorMark,
      (List.orderedInsert startLE a l).filter (fun m => decide (m.start = q)) =
        if a.start = q then a :: l.filter (fun m => decide (m.start = q))
        else l.filter (fun m => decide (m.start = q))
  | [] => by
    by_cases hq : a.start = q <;>
      simp [List.orderedInsert, List.filter_cons, hq]
  | b :: l => by
    rw [List.orderedInsert]
    by_cases h1 : startLE a b
    · rw [if_pos h1]
      by_cases hq : a.start = q <;> by_cases hbq : b.start = q <;>
        simp [List.filter_cons, hq, hbq]
    · rw [if_neg h1]
      have hba : b.start < a.start := by
        simp only [startLE] at h1
        exact not_le.mp h1
      rw [List.filter_cons, List.filter_cons]
      rw [filter_orderedInsert q a l]
      by_cases hq : a.start = q
      · have hbq : ¬ b.start = q := by
          rw [← hq]
          exact ne_of_lt hba
        simp [hq, hbq]
      · by_cases hbq : b.start = q <;> simp [hq, hbq]

/-- Filtering for a fixed start value is invariant under the stable
insertion sort. -/
lemma filter_insertionSort (q : ℚ) :
    ∀ l : List ColorMark,
      (List.insertionSort startLE l).filter (fun m => decide (m.start = q)) =
        l.filter (fun m => decide (m.start = q))
  | [] => rfl
  | a :: l => by
    simp only [List.insertionSort]
    rw [filter_orderedInsert q a (List.insertionSort startLE l), filter_insertionSort q l,
      List.filter_cons]
    simp [decide_eq_true_eq]

/-- Claim C3: the collector's output is sorted ascending by `start`, and
the marks having any fixed start value appear exactly as in discovery
order — the sort is stable. -/
theorem collectMarks_sorted_and_stable (cfg : Config) (dom : Dom) :
    (collectMarks cfg dom).Sorted startLE ∧
      ∀ q : ℚ, (collectMarks cfg dom).filter (fun m => decide (m.start = q)) =
        (collectRaw cfg dom).filter (fun m => decide (m.start = q)) := by
  constructor
  · exact List.sorted_insertionSort startLE (collectRaw cfg dom)
  · intro q
    exact filter_insertionSort q (collectRaw cfg dom)

/-- Elements with a falsy color attribute are skipped by the forEach
body. -/
lemma markOfElement_none_of_falsy {dom : Dom} {H : ℚ} {el : MarkedElement}
    (h : hasUsableColor el = false) : markOfElement dom H el = none := by
  rw [markOfElement]
  rcases hat : el.colorAttr with _ | color
  · simp
  · rw [hasUsableColor, hat] at h
    simp only [Bool.not_eq_false'] at h
    have hc : color = "" := by
      simpa using h
    simp [hc]

/-- Dropping list entries the function maps to `none` does not change a
filterMap. -/
lemma filterMap_filter_of_none {α β : Type} (f : α → Option β) (p : α → Bool)
    (hfp : ∀ a, p a = false → f a = none) :
    ∀ l : List α, (l.filter p).filterMap f = l.filterMap f
  | [] => rfl
  | a :: l => by
    rcases hp : p a with _ | _
    · rw [List.filter_cons, hp]
      simp only [Bool.false_eq_true, if_false]
      rw [List.filterMap_cons, hfp a hp, filterMap_filter_of_none f p hfp l]
    · rw [List.filter_cons, hp]
      simp only [if_true]
      simp only [List.filterMap_cons, filterMap_filter_of_none f p hfp l]

/-- Claim C4 (amended): elements whose color attribute is missing or empty
are excluded — removing them from the snapshot leaves the collector's
output unchanged.  An element whose attribute is whitespace-only is NOT
excluded: it survives the falsy check and produces a mark whose trimmed
color is the empty string (see the counterexample). -/
theorem collectMarks_drops_falsy_colors (cfg : Config) (dom : Dom) :
    collectMarks cfg { dom with elements := dom.elements.filter hasUsableColor } =
      collectMarks cfg dom := by
  rw [collectMarks, collectMarks, collectRaw, collectRaw]
  have hsh : getScrollHeight { dom with elements := dom.elements.filter hasUsableColor } =
      getScrollHeight dom := rfl
  rw [hsh]
  split_ifs with hH
  · rfl
  · have hme : markOfElement { dom with elements := dom.elements.filter hasUsableColor } =
        markOfElement dom := rfl
    simp only [hme]
    rw [filterMap_filter_of_none (markOfElement dom (getScrollHeight dom)) hasUsableColor
      (fun el h => markOfElement_none_of_falsy h) dom.elements]

/-- Claim C4, counterexample: a whitespace-only color attribute is truthy,
so the element is kept and yields a mark whose color trims to the empty
string — contradicting the claim that such elements are excluded. -/
theorem collectMarks_keeps_whitespace_color :
    collectMarks cfgDefault domWs = [{ start := 5, endPct := 15, color := "" }] := by
  norm_num [collectMarks, collectRaw, markOfElement, getScrollHeight, scrollTopOf, domWs,
    cfgDefault, mkConfig, strOr, numOr, List.insertionSort, List.orderedInsert,
    max_def, min_def, List.filterMap_cons, List.filterMap_nil]
  decide

/-- Claim C5 (amended): `update()` on an active instance replaces the
stored MarkSet with the collector's result for the current snapshot
whenever the content is scrollable; when the total scrollable height does
not exceed the viewport height it only clears the styling and leaves the
previously stored MarkSet in place, so `getMarks()` can still return marks
computed from an earlier snapshot (see the counterexample). -/
theorem update_marks_replacement (cfg : Config) (dom : Dom) (s : InstState)
    (h : s.destroyed = false) :
    (dom.innerHeight < getScrollHeight dom →
        (update cfg dom s).marks = collectMarks cfg dom) ∧
      (getScrollHeight dom ≤ dom.innerHeight →
        (update cfg dom s).marks = s.marks ∧ (update cfg dom s).styleText = "") := by
  have hne : ¬ s.destroyed = true := by
    rw [h]
    exact Bool.false_ne_true
  constructor
  · intro hgt
    rw [update, if_neg hne, if_neg (not_le.mpr hgt)]
  · intro hle
    rw [update, if_neg hne, if_pos hle]
    exact ⟨rfl, rfl⟩

/-- Witness for C5 (amended) at the concrete snapshot `domA` and a fresh
instance. -/
theorem update_marks_replacement_wit :
    (domA.innerHeight < getScrollHeight domA →
        (update cfgDefault domA (initState ("w5"))).marks = collectMarks cfgDefault domA) ∧
      (getScrollHeight domA ≤ domA.innerHeight →
        (update cfgDefault domA (initState ("w5"))).marks = (initState ("w5")).marks ∧
          (update cfgDefault domA (initState ("w5"))).styleText = "") :=
  update_marks_replacement cfgDefault domA (initState ("w5")) rfl

/-- Claim C5, counterexample: after an `update()` in which the total
scrollable height does not exceed the viewport height, `getMarks()` still
returns the marks collected from the earlier snapshot, not the collector's
result for the current one. -/
theorem update_stale_marks_cex :
    getScrollHeight domFlat ≤ domFlat.innerHeight ∧
      collectMarks cfgDefault domFlat = [] ∧
      getMarks staleState = [markA] ∧
      getMarks staleState ≠ collectMarks cfgDefault domFlat := by
  have hflat : collectMarks cfgDefault domFlat = [] := by
    norm_num [collectMarks, collectRaw, getScrollHeight, domFlat, max_def,
      List.insertionSort]
  have hA : collectMarks cfgDefault domA = [markA] := by
    norm_num [collectMarks, collectRaw, markOfElement, getScrollHeight, scrollTopOf, domA,
      cfgDefault, mkConfig, strOr, numOr, List.insertionSort, List.orderedInsert,
      max_def, min_def, List.filterMap_cons, List.filterMap_nil, markA]
    decide
  have hne0 : ¬ (initState ("t5")).destroyed = true := by
    intro hc
    exact Bool.false_ne_true hc
  have hgtA : ¬ getScrollHeight domA ≤ domA.innerHeight := by
    norm_num [getScrollHeight, domA, max_def]
  have h1marks : (update cfgDefault domA (initState ("t5"))).marks = [markA] := by
    rw [update, if_neg hne0, if_neg hgtA, hA]
  have hne1 : ¬ (update cfgDefault domA (initState ("t5"))).destroyed = true := by
    rw [(update_preserves cfgDefault domA (initState ("t5"))).2.1]
    exact hne0
  have hleF : getScrollHeight domFlat ≤ domFlat.innerHeight := by
    norm_num [getScrollHeight, domFlat, max_def]
  have hsm : staleState.marks = [markA] := by
    rw [staleState, update, if_neg hne1, if_pos hleF]
    exact h1marks
  have hsd : ¬ staleState.destroyed = true := by
    rw [staleState, (update_preserves cfgDefault domFlat _).2.1]
    exact hne1
  have hgm : getMarks staleState = [markA] := by
    rw [getMarks, if_neg hsd]
    exact hsm
  refine ⟨hleF, hflat, hgm, ?_⟩
  rw [hgm, hflat]
  simp

/-- A non-destroy public operation leaves the instance undestroyed and
preserves the stored id. -/
lemma stepOp_preserves (cfg : Config) (s : InstState) (o : Op)
    (hd : s.destroyed = false) (ho : o.isDestroyOp = false) :
    (stepOp cfg s o).destroyed = false ∧ (stepOp cfg s o).id = s.id := by
  cases o with
  | opUpdate dom =>
    have h := update_preserves cfg dom s
    exact ⟨h.2.1.trans hd, h.1⟩
  | opGetMarks => exact ⟨hd, rfl⟩
  | opGetId => exact ⟨hd, rfl⟩
  | opSchedule => exact ⟨hd, rfl⟩
  | opFire dom =>
    by_cases hp : s.pending = true
    · have h := update_preserves cfg dom { s with pending := false }
      constructor
      · show (fire cfg dom s).destroyed = false
        rw [fire, if_pos hp, h.2.1]
        exact hd
      · show (fire cfg dom s).id = s.id
        rw [fire, if_pos hp, h.1]
    · constructor
      · show (fire cfg dom s).destroyed = false
        rw [fire, if_neg hp]
        exact hd
      · show (fire cfg dom s).id = s.id
        rw [fire, if_neg hp]
  | opDestroy => simp [Op.isDestroyOp] at ho

/-- Running any sequence of non-destroy operations leaves the instance
undestroyed and preserves the stored id. -/
lemma runOps_preserves (cfg : Config) :
    ∀ (ops : List Op) (s : InstState), s.destroyed = false →
      (ops.all fun o => !o.isDestroyOp) = true →
      (runOps cfg s ops).destroyed = false ∧ (runOps cfg s ops).id = s.id
  | [], s, hd, _ => ⟨hd, rfl⟩
  | o :: os, s, hd, hall => by
    rw [List.all_cons, Bool.and_eq_true] at hall
    have ho : o.isDestroyOp = false := by
      simpa using hall.1
    have hstep := stepOp_preserves cfg s o hd ho
    have hrec := runOps_preserves cfg os (stepOp cfg s o) hstep.1 hall.2
    rw [runOps]
    exact ⟨hrec.1, hrec.2.trans hstep.2⟩

/-- Reading the id at any point of a destroy-free lifetime gives the
string generated at construction. -/
lemma getId_runOps (cfg : Config) (tok : String) (dom : Dom) (ops : List Op)
    (h : (ops.all fun o => !o.isDestroyOp) = true) :
    getId (runOps cfg (mkInstance cfg tok dom) ops) = generateId tok := by
  have h0 : (mkInstance cfg tok dom).destroyed = false :=
    (update_preserves cfg dom (initState tok)).2.1.trans rfl
  have h0id : (mkInstance cfg tok dom).id = generateId tok :=
    (update_preserves cfg dom (initState tok)).1.trans rfl
  have hrun := runOps_preserves cfg ops (mkInstance cfg tok dom) h0 h
  have hne : ¬ (runOps cfg (mkInstance cfg tok dom) ops).destroyed = true := by
    rw [hrun.1]
    exact Bool.false_ne_true
  rw [getId, if_neg hne, hrun.2, h0id]

/-- Generated ids coincide only for the same random token, so instances
whose tokens differ have distinct ids. -/
lemma generateId_inj {t u : String} (h : generateId t = generateId u) : t = u := by
  rw [generateId, generateId] at h
  have hd : ("scrollmarks-" ++ t).data = ("scrollmarks-" ++ u).data := by
    rw [h]
  rw [String.data_append, String.data_append] at hd
  have hc := List.append_cancel_left hd
  exact String.ext hc

/-- Claim C9: at every point of the instance's lifetime — that is, after
any sequence of operations that does not include `destroy()` — `getId()`
returns one and the same string, that string is `scrollmarks-` followed
by the instance's generated token, and it is unique per instance: any
instance constructed with a different random token answers a different id
at every point of its own lifetime. -/
theorem getId_stable_lifetime (cfg : Config) (tok : String) (dom : Dom) (ops : List Op)
    (h : (ops.all fun o => !o.isDestroyOp) = true) :
    getId (runOps cfg (mkInstance cfg tok dom) ops) = generateId tok ∧
      generateId tok = "scrollmarks-" ++ tok ∧
      ∀ (cfg2 : Config) (tok2 : String) (dom2 : Dom) (ops2 : List Op),
        (ops2.all fun o => !o.isDestroyOp) = true → tok2 ≠ tok →
        getId (runOps cfg2 (mkInstance cfg2 tok2 dom2) ops2) ≠
          getId (runOps cfg (mkInstance cfg tok dom) ops) := by
  refine ⟨getId_runOps cfg tok dom ops h, rfl, ?_⟩
  intro cfg2 tok2 dom2 ops2 h2 hne
  rw [getId_runOps cfg2 tok2 dom2 ops2 h2, getId_runOps cfg tok dom ops h]
  intro hc
  exact hne (generateId_inj hc)

/-- Witness for C9: a concrete lifetime with scheduling, firing, updating
and reading operations, plus a second concurrent instance with a distinct
token whose id differs. -/
theorem getId_stable_lifetime_wit :
    getId (runOps cfgDefault (mkInstance cfgDefault ("abc123xyz") domA)
        [Op.opSchedule, Op.opFire domFlat, Op.opUpdate domA, Op.opGetMarks]) =
      generateId ("abc123xyz") ∧
      generateId ("abc123xyz") = "scrollmarks-" ++ "abc123xyz" ∧
      getId (runOps cfgDefault (mkInstance cfgDefault ("zzz999000") domFlat) []) ≠
        getId (runOps cfgDefault (mkInstance cfgDefault ("abc123xyz") domA)
          [Op.opSchedule, Op.opFire domFlat, Op.opUpdate domA, Op.opGetMarks]) :=
  have h := getId_stable_lifetime cfgDefault ("abc123xyz") domA
    [Op.opSchedule, Op.opFire domFlat, Op.opUpdate domA, Op.opGetMarks] (by decide)
  ⟨h.1, h.2.1, h.2.2 cfgDefault ("zzz999000") domFlat [] (by decide) (by decide)⟩

/-- End of a list with a nonempty tail is the end of the tail. -/
lemma lastHi_cons (a : Segment) {rest : List Segment} (h : rest ≠ []) :
    lastHi (a :: rest) = lastHi rest := by
  cases rest with
  | nil => exact absurd rfl h
  | cons b t => rfl

/-- Invariant of the gradient loop: from position `x` over a chained mark
list, the emitted segments are either empty (only possible when no marks
remain and `x` is already within the closing tolerance of 100) or form an
adjacent chain starting within tolerance of `x` and ending within
tolerance of 100. -/
lemma buildSegmentsAux_spec (track : String) :
    ∀ (ms : List ColorMark) (x : ℚ), chainedFrom x ms = true → x ≤ 100 →
      (buildSegmentsAux track x ms = [] ∧ 9999 / 100 ≤ x) ∨
        (buildSegmentsAux track x ms ≠ [] ∧
          x ≤ headLo (buildSegmentsAux track x ms) ∧
          headLo (buildSegmentsAux track x ms) ≤ x + 1 / 100 ∧
          adjacentWithin (1 / 100) (buildSegmentsAux track x ms) = true ∧
          100 - 1 / 100 ≤ lastHi (buildSegmentsAux track x ms) ∧
          lastHi (buildSegmentsAux track x ms) ≤ 100)
  | [], x, hch, hx => by
    rw [buildSegmentsAux]
    split_ifs with h99
    · right
      refine ⟨by simp, ?_, ?_, ?_, ?_, ?_⟩
      · show x ≤ x
        exact le_refl x
      · show x ≤ x + 1 / 100
        norm_num
      · rfl
      · show (100 : ℚ) - 1 / 100 ≤ 100
        norm_num
      · show (100 : ℚ) ≤ 100
        exact le_refl 100
    · left
      exact ⟨rfl, le_of_not_lt h99⟩
  | m :: ms, x, hch, hx => by
    rw [chainedFrom] at hch
    simp only [validMark, Bool.and_eq_true, decide_eq_true_eq] at hch
    obtain ⟨⟨hxm, ⟨⟨h0m, hlt⟩, h100⟩⟩, hrest⟩ := hch
    have hrec := buildSegmentsAux_spec track ms m.endPct hrest h100
    rw [buildSegmentsAux]
    split_ifs with hgap
    · -- a track-colored gap segment is emitted before the mark's segment
      rw [List.singleton_append]
      rcases hrec with ⟨hre, h99⟩ | ⟨hne, hb1, hb2, hadj, hl1, hl2⟩
      · rw [hre]
        right
        refine ⟨by simp, ?_, ?_, ?_, ?_, ?_⟩
        · show x ≤ x
          exact le_refl x
        · show x ≤ x + 1 / 100
          norm_num
        · show (decide (|m.start - m.start| ≤ 1 / 100) &&
              adjacentWithin (1 / 100) [{ color := m.color, lo := m.start, hi := m.endPct }]) = true
          simp only [Bool.and_eq_true, decide_eq_true_eq]
          refine ⟨?_, rfl⟩
          rw [sub_self, abs_zero]
          norm_num
        · show 100 - 1 / 100 ≤ m.endPct
          linarith
        · show m.endPct ≤ 100
          exact h100
      · obtain ⟨b, t, hbt⟩ := List.exists_cons_of_ne_nil hne
        rw [hbt] at hb1 hb2 hadj hl1 hl2 ⊢
        right
        refine ⟨by simp, ?_, ?_, ?_, ?_, ?_⟩
        · show x ≤ x
          exact le_refl x
        · show x ≤ x + 1 / 100
          norm_num
        · show (decide (|m.start - m.start| ≤ 1 / 100) &&
              (decide (|b.lo - m.endPct| ≤ 1 / 100) && adjacentWithin (1 / 100) (b :: t))) = true
          have habs : |b.lo - m.endPct| ≤ 1 / 100 := by
            rw [abs_le]
            constructor
            · have : m.endPct ≤ b.lo := hb1
              linarith
            · have : b.lo ≤ m.endPct + 1 / 100 := hb2
              linarith
          simp only [Bool.and_eq_true, decide_eq_true_eq]
          refine ⟨?_, habs, hadj⟩
          rw [sub_self, abs_zero]
          norm_num
        · rw [lastHi_cons _ (by simp), lastHi_cons _ (by simp)]
          exact hl1
        · rw [lastHi_cons _ (by simp), lastHi_cons _ (by simp)]
          exact hl2
    · -- no gap: the mark's segment follows directly
      rw [List.nil_append]
      have hms : m.start ≤ x + 1 / 100 := le_of_not_lt hgap
      rcases hrec with ⟨hre, h99⟩ | ⟨hne, hb1, hb2, hadj, hl1, hl2⟩
      · rw [hre]
        right
        refine ⟨by simp, ?_, ?_, ?_, ?_, ?_⟩
        · show x ≤ m.start
          exact hxm
        · show m.start ≤ x + 1 / 100
          exact hms
        · rfl
        · show 100 - 1 / 100 ≤ m.endPct
          linarith
        · show m.endPct ≤ 100
          exact h100
      · obtain ⟨b, t, hbt⟩ := List.exists_cons_of_ne_nil hne
        rw [hbt] at hb1 hb2 hadj hl1 hl2 ⊢
        right
        refine ⟨by simp, ?_, ?_, ?_, ?_, ?_⟩
        · show x ≤ m.start
          exact hxm
        · show m.start ≤ x + 1 / 100
          exact hms
        · show (decide (|b.lo - m.endPct| ≤ 1 / 100) && adjacentWithin (1 / 100) (b :: t)) = true
          have habs : |b.lo - m.endPct| ≤ 1 / 100 := by
            rw [abs_le]
            constructor
            · have : m.endPct ≤ b.lo := hb1
              linarith
            · have : b.lo ≤ m.endPct + 1 / 100 := hb2
              linarith
          simp only [Bool.and_eq_true, decide_eq_true_eq]
          exact ⟨habs, hadj⟩
        · rw [lastHi_cons _ (by simp)]
          exact hl1
        · rw [lastHi_cons _ (by simp)]
          exact hl2

/-- Claim C1 (amended): for every trackColor and every MarkSet whose marks
are, in addition to being valid and sorted, non-overlapping (each mark
starts no earlier than the previous one ends), the emitted segments are
contiguous within ε = 0.01, the first beginning at 0 and the last ending
at 100 within the same tolerance.  Overlapping marks — which the collector
can legitimately produce — break this contiguity (see the
counterexample). -/
theorem gradientSegments_contiguous_of_chained (track : String) (marks : List ColorMark)
    (h : chainedFrom 0 marks = true) :
    segmentsContiguous (1 / 100) (buildSegments track marks) = true := by
  have hs := buildSegmentsAux_spec track marks 0 h (by norm_num)
  rw [buildSegments]
  rcases hs with ⟨_, h99⟩ | ⟨hne, h1, h2, hadj, hl1, hl2⟩
  · exfalso
    norm_num at h99
  · rw [segmentsContiguous]
    have h0 : |headLo (buildSegmentsAux track 0 marks)| ≤ 1 / 100 := by
      rw [abs_le]
      constructor
      · linarith
      · linarith
    have hl : |lastHi (buildSegmentsAux track 0 marks) - 100| ≤ 1 / 100 := by
      rw [abs_le]
      constructor
      · linarith
      · linarith
    simp only [Bool.and_eq_true, decide_eq_true_eq, Bool.not_eq_true', List.isEmpty_eq_false]
    exact ⟨⟨⟨hne, h0⟩, hadj⟩, hl⟩

/-- Witness for C1 (amended): two valid, sorted, non-overlapping marks. -/
theorem gradientSegments_contiguous_wit :
    chainedFrom 0 [{ start := 10, endPct := 20, color := "red" },
        { start := 30, endPct := 40, color := "blue" }] = true ∧
      segmentsContiguous (1 / 100)
        (buildSegments ("#1a1a2e")
          [{ start := 10, endPct := 20, color := "red" },
            { start := 30, endPct := 40, color := "blue" }]) = true :=
  ⟨by decide, gradientSegments_contiguous_of_chained ("#1a1a2e") _ (by decide)⟩

/-- Claim C1, counterexample: the collector can emit a well-formed MarkSet
with overlapping intervals; on it the emitted segments are NOT contiguous —
the segment of the second mark begins at 10 although the previous segment
ends at 50, a gap far beyond ε = 0.01. -/
theorem gradientSegments_contiguity_cex :
    collectMarks cfgDefault domOverlap = marksOverlap ∧
      isMarkSet marksOverlap = true ∧
      segmentsContiguous (1 / 100) (buildSegments (cfgDefault.trackColor) marksOverlap) = false := by
  refine ⟨?_, by decide, ?_⟩
  · norm_num [collectMarks, collectRaw, markOfElement, getScrollHeight, scrollTopOf, domOverlap,
      cfgDefault, mkConfig, strOr, numOr, List.insertionSort, List.orderedInsert,
      max_def, min_def, List.filterMap_cons, List.filterMap_nil, marksOverlap, startLE]
    decide
  · norm_num [segmentsContiguous, buildSegments, buildSegmentsAux, marksOverlap, cfgDefault,
      mkConfig, strOr, adjacentWithin, headLo, lastHi]

end SM
